import Mathlib

/-!
Verification of the native bridge in `app/src/main/cpp/llama_jni.cpp`.

The C++ file implements a handle-based registry of stub model contexts
(`g_contexts : unordered_map<jlong, ModelContext*>`, `g_next_handle`) and a
substring-matching intent classifier that returns canned JSON responses.
Strings are modelled as `List Char`; the registry as an association list
plus the next-handle counter; `jlong` handles as `Int`.
-/

set_option maxRecDepth 40000

namespace LlamaJni

/-- Shorthand turning a Lean string literal into the `List Char` model of
`std::string`. -/
def strL (s : String) : List Char := s.toList

/-- ASCII `tolower`, as applied per character in `generate`
(`for (auto& c : lowerPrompt) c = tolower(c);`). -/
def lowerChar (c : Char) : Char :=
  if 'A' ≤ c ∧ c ≤ 'Z' then Char.ofNat (c.toNat + 32) else c

/-- `std::string::find(substring) != npos`: does `hay` contain `pat` as a
contiguous substring? -/
def containsSub (pat : List Char) : List Char → Bool
  | [] => pat.isEmpty
  | c :: t => pat.isPrefixOf (c :: t) || containsSub pat t

/-- `std::string::find(char, start)`: index of the first occurrence of `c`
at position `start` or later, `none` for `npos`. -/
def findFrom (c : Char) : List Char → Nat → Option Nat
  | [], _ => none
  | a :: t, 0 => if a = c then some 0 else Option.map (fun i => i + 1) (findFrom c t 0)
  | _ :: t, s + 1 => Option.map (fun i => i + 1) (findFrom c t s)

/-- The quote-extraction heuristic exactly as coded in `generate`:
`quoteStart = promptText.find('"')`, `quoteEnd = promptText.find('"', quoteStart + 1)`
(when `quoteStart` is `npos`, `npos + 1` wraps to `0` on `size_t`, and the
second `find` again returns `npos` since the string has no quote), then
`substr(quoteStart + 1, quoteEnd - quoteStart - 1)` when both are found. -/
def extractTitleOpt (p : List Char) : Option (List Char) :=
  let qs := findFrom '"' p 0
  let qe := findFrom '"' p (match qs with | none => 0 | some i => i + 1)
  match qs, qe with
  | some s, some e => some (List.take (e - s - 1) (List.drop (s + 1) p))
  | _, _ => none

/-- Extracted title, or the branch default when extraction fails. -/
def extractTitle (p : List Char) (dflt : List Char) : List Char :=
  (extractTitleOpt p).getD dflt

/-- Spec-side quote rule, first half: the suffix of the prompt after the
first double quote (`none` if there is no double quote). -/
def afterFirstQuote : List Char → Option (List Char)
  | [] => none
  | c :: t => if c = '"' then some t else afterFirstQuote t

/-- Spec-side quote rule, second half: the characters strictly before the
next double quote (`none` if there is no further double quote). -/
def upToQuote : List Char → Option (List Char)
  | [] => none
  | c :: t => if c = '"' then some [] else Option.map (fun r => c :: r) (upToQuote t)

/-- Modelled from the spec: "locate the first `"` character and the next `"`
after it; the substring strictly between them is the extracted value" —
the clean statement of the quote-extraction rule, to be compared with the
source's `find`/`substr` implementation `extractTitleOpt`. -/
def betweenQuotes (p : List Char) : Option (List Char) :=
  (afterFirstQuote p).bind upToQuote

/-- Response template of the `create_goal` branch of `generate`. -/
def goalTemplate (name : List Char) : List Char :=
  strL ("\x7b\"action\":\"create_goal\",\"message\":\"I\x27ll create a goal for ") ++ name ++
  strL ("\",\"data\":\x7b\"goalTitle\":\"") ++ name ++
  strL ("\",\"durationMonths\":3,\"dailyMinutes\":30\x7d\x7d")

/-- Response template of the `create_task` branch of `generate`. -/
def taskTemplate (name : List Char) : List Char :=
  strL ("\x7b\"action\":\"create_task\",\"message\":\"I\x27ll add the task: ") ++ name ++
  strL ("\",\"data\":\x7b\"taskTitle\":\"") ++ name ++
  strL ("\",\"dueDate\":\"today\",\"minutes\":30\x7d\x7d")

/-- Response template of the `complete_task` branch of `generate`. -/
def completeTemplate (name : List Char) : List Char :=
  strL ("\x7b\"action\":\"complete_task\",\"message\":\"Great job! I\x27ll mark that as complete.\",\"data\":\x7b\"taskTitle\":\"") ++
  name ++ strL ("\"\x7d\x7d")

/-- Fixed reply of the list/show branch. -/
def listShowResponse : List Char :=
  strL ("\x7b\"action\":\"reply\",\"message\":\"Here are your current items. You can ask me to create goals or add tasks!\",\"data\":\x7b\x7d\x7d")

/-- Fixed reply of the help branch. -/
def helpResponse : List Char :=
  strL ("\x7b\"action\":\"reply\",\"message\":\"I can help you manage goals and tasks! Try saying: \x27Create a goal to learn Python\x27 or \x27Add task review notes tomorrow\x27\",\"data\":\x7b\x7d\x7d")

/-- Fixed reply of the delete/remove branch. -/
def deleteResponse : List Char :=
  strL ("\x7b\"action\":\"reply\",\"message\":\"To delete an item, please specify exactly which goal or task you want to remove.\",\"data\":\x7b\x7d\x7d")

/-- Fixed response of the progress/status branch. -/
def progressResponse : List Char :=
  strL ("\x7b\"action\":\"show_progress\",\"message\":\"Let me show you your progress summary!\",\"data\":\x7b\x7d\x7d")

/-- Fixed default conversational reply. -/
def defaultResponse : List Char :=
  strL ("\x7b\"action\":\"reply\",\"message\":\"I\x27m your local AI assistant running on-device! I can help you create goals, add tasks, and track your progress. What would you like to do?\",\"data\":\x7b\x7d\x7d")

/-- Fixed response returned by `generate` on an invalid context handle. -/
def invalidResponse : List Char :=
  strL ("\x7b\"action\":\"reply\",\"message\":\"Error: Model not loaded\",\"data\":\x7b\x7d\x7d")

/-- Fixed response of `LlamaInference.nativeGenerate` when no model is loaded. -/
def noModelResponse : List Char :=
  strL ("\x7b\"action\":\"reply\",\"message\":\"No model loaded. Please download a model first.\",\"data\":\x7b\x7d\x7d")

/-- The stub classifier: the if/else-if chain of `generate` mapping the
prompt to a JSON response, matching on the lowercased prompt and extracting
titles from the original prompt. -/
def classifyPrompt (p : List Char) : List Char :=
  let lower := p.map lowerChar
  if containsSub (strL ("create")) lower && containsSub (strL ("goal")) lower then
    goalTemplate (extractTitle p (strL ("New Goal")))
  else if containsSub (strL ("add")) lower && containsSub (strL ("task")) lower then
    taskTemplate (extractTitle p (strL ("New Task")))
  else if containsSub (strL ("list")) lower || containsSub (strL ("show")) lower then
    listShowResponse
  else if containsSub (strL ("help")) lower then
    helpResponse
  else if containsSub (strL ("complete")) lower || containsSub (strL ("done")) lower ||
          containsSub (strL ("finish")) lower then
    completeTemplate (extractTitle p (strL ("task")))
  else if containsSub (strL ("delete")) lower || containsSub (strL ("remove")) lower then
    deleteResponse
  else if containsSub (strL ("progress")) lower || containsSub (strL ("how am i")) lower ||
          containsSub (strL ("status")) lower then
    progressResponse
  else
    defaultResponse

/-- The `ModelContext` struct of the source. -/
structure ModelContext where
  modelPath : String
  isLoaded : Bool
  contextSize : Int
  numThreads : Int
deriving DecidableEq

/-- Constructor `ModelContext(path)`: loaded, context 2048, 4 threads. -/
def mkContext (path : String) : ModelContext :=
  { modelPath := path, isLoaded := true, contextSize := 2048, numThreads := 4 }

/-- The global registry: `g_contexts` (association list keyed by handle)
and `g_next_handle`. -/
structure RegistryState where
  contexts : List (Int × ModelContext)
  nextHandle : Int
deriving DecidableEq

/-- Process start state: empty table, `g_next_handle = 1`. -/
def initState : RegistryState := { contexts := [], nextHandle := 1 }

/-- `g_contexts.find(h)`: first entry with key `h`. -/
def lookupCtx (h : Int) : List (Int × ModelContext) → Option ModelContext
  | [] => none
  | e :: t => if e.1 = h then some e.2 else lookupCtx h t

/-- `g_contexts.erase(it)` after a successful `find`: removes the entry
with key `h`. -/
def eraseKey (h : Int) : List (Int × ModelContext) → List (Int × ModelContext)
  | [] => []
  | e :: t => if e.1 = h then t else e :: eraseKey h t

/-- `LlamaNative.initModel`: allocates `g_next_handle++` and inserts a fresh
context under it; returns the handle and the new registry state. -/
def initModel (path : String) (st : RegistryState) : Int × RegistryState :=
  (st.nextHandle,
   { contexts := (st.nextHandle, mkContext path) :: st.contexts,
     nextHandle := st.nextHandle + 1 })

/-- `LlamaNative.generate`: the fixed invalid-context reply when the handle
is absent, otherwise the classifier's response; the registry is read, never
written. -/
def generate (h : Int) (p : List Char) (_maxTokens : Int) (st : RegistryState) :
    List Char × RegistryState :=
  ((if (lookupCtx h st.contexts).isNone then invalidResponse else classifyPrompt p), st)

/-- `LlamaNative.freeModel`: erase the entry if present, otherwise only log —
no error surfaced either way. -/
def freeModel (h : Int) (st : RegistryState) : RegistryState :=
  if (lookupCtx h st.contexts).isNone then st
  else { st with contexts := eraseKey h st.contexts }

/-- `LlamaInference.nativeUnloadModel` (also `nativeCleanup`): deletes every
context and clears the table; `g_next_handle` is untouched. -/
def nativeUnloadModel (st : RegistryState) : RegistryState :=
  { st with contexts := [] }

/-- The unspecified choice `g_contexts.begin()` makes on a non-empty
`unordered_map`: any function selecting an entry of the list. -/
def Choice : Type := List (Int × ModelContext) → Option (Int × ModelContext)

/-- What the C++ standard guarantees about `begin()`: on a non-empty table
it yields one of its entries. -/
def ValidChoice (f : Choice) : Prop :=
  (∀ l e, f l = some e → e ∈ l) ∧ (∀ l, l ≠ [] → (f l).isSome)

/-- `LlamaInference.nativeLoadModel`: delegates to `initModel`, returns
whether the handle is non-zero (the `nThreads`/`nCtx` arguments are unused). -/
def nativeLoadModel (path : String) (_nThreads _nCtx : Int) (st : RegistryState) :
    Bool × RegistryState :=
  let r := initModel path st
  (r.1 ≠ 0, r.2)

/-- `LlamaInference.nativeGenerate`: resolves the implicit current handle via
`g_contexts.begin()` (modelled by `choice`), returns the fixed no-model reply
when the table is empty, otherwise forwards to `generate`. -/
def nativeGenerate (choice : Choice) (p : List Char) (maxTokens : Int)
    (_temperature _topP : Float) (st : RegistryState) : List Char × RegistryState :=
  let handle : Int :=
    if st.contexts.isEmpty then 0
    else match choice st.contexts with
         | some e => e.1
         | none => 0
  if handle = 0 then (noModelResponse, st) else generate handle p maxTokens st

/-- `LlamaInference.nativeGenerateWithCallback`: forwards to `nativeGenerate`
with `topP = 0.9`; the callback object is never touched, so the list of sink
deliveries is empty. -/
def nativeGenerateWithCallback {κ : Type} (choice : Choice) (p : List Char)
    (maxTokens : Int) (temperature : Float) (_callback : κ) (st : RegistryState) :
    (List Char × RegistryState) × List (List Char) :=
  (nativeGenerate choice p maxTokens temperature 0.9 st, [])

/-- `LlamaInference.nativeIsModelLoaded`: the table is non-empty. -/
def nativeIsModelLoaded (st : RegistryState) : Bool :=
  !st.contexts.isEmpty

/-- The model-info JSON built by `nativeGetModelInfo` from one context. -/
def modelInfoString (ctx : ModelContext) : List Char :=
  strL ("\x7b\"status\":\"loaded\",\"path\":\"") ++ (ctx.modelPath).toList ++
  strL ("\",\"contextSize\":") ++ (toString (ctx.contextSize)).toList ++
  strL (",\"threads\":") ++ (toString (ctx.numThreads)).toList ++ strL ("\x7d")

/-- `LlamaInference.nativeGetModelInfo`: empty string on an empty table,
otherwise the info JSON of the context `begin()` designates. -/
def nativeGetModelInfo (choice : Choice) (st : RegistryState) :
    List Char × RegistryState :=
  if st.contexts.isEmpty then ([], st)
  else
    match choice st.contexts with
    | some e => (modelInfoString e.2, st)
    | none => ([], st)

/-- The opening brace character. -/
def lbrace : Char := Char.ofNat 123

/-- The closing brace character. -/
def rbrace : Char := Char.ofNat 125

/-- JSON values (integer numbers only). -/
inductive JVal where
  | jstr : List Char → JVal
  | jnum : Int → JVal
  | jbool : Bool → JVal
  | jnull : JVal
  | jarr : List JVal → JVal
  | jobj : List (List Char × JVal) → JVal

/-- Decode the character after a backslash in a JSON string. -/
def decodeEsc (c : Char) : Char :=
  if c = 'n' then Char.ofNat 10
  else if c = 't' then Char.ofNat 9
  else if c = 'r' then Char.ofNat 13
  else c

/-- Skip JSON insignificant whitespace. -/
def skipWs : List Char → List Char
  | [] => []
  | c :: t =>
    if c = ' ' ∨ c = Char.ofNat 10 ∨ c = Char.ofNat 9 ∨ c = Char.ofNat 13
    then skipWs t else c :: t

/-- Parse the body of a JSON string literal (the opening quote already
consumed): the decoded characters and the rest of the input after the
closing quote. -/
def parseStr : List Char → Option (List Char × List Char)
  | [] => none
  | '"' :: t => some ([], t)
  | '\x5c' :: [] => none
  | '\x5c' :: e :: t2 => Option.map (fun r => (decodeEsc e :: r.1, r.2)) (parseStr t2)
  | c :: t =>
    if c.toNat < 32 then none
    else Option.map (fun r => (c :: r.1, r.2)) (parseStr t)

/-- Is `c` an ASCII digit? -/
def isDigitC (c : Char) : Bool := '0' ≤ c && c ≤ '9'

/-- Longest digit run at the head of the input. -/
def takeDigits : List Char → List Char × List Char
  | [] => ([], [])
  | c :: t =>
    if isDigitC c then
      let r := takeDigits t
      (c :: r.1, r.2)
    else ([], c :: t)

/-- Numeric value of a digit run. -/
def digitsVal (l : List Char) : Nat :=
  l.foldl (fun acc c => 10 * acc + (c.toNat - 48)) 0

/-- Parse a nonempty digit run into a number. -/
def parseNum (l : List Char) : Option (Nat × List Char) :=
  let r := takeDigits l
  if r.1.isEmpty then none else some (digitsVal r.1, r.2)

mutual

/-- Fuel-indexed JSON value parser. -/
def parseVal : Nat → List Char → Option (JVal × List Char)
  | 0, _ => none
  | fuel + 1, l =>
    match skipWs l with
    | [] => none
    | c :: r =>
      if c = '"' then Option.map (fun p => (JVal.jstr p.1, p.2)) (parseStr r)
      else if c = lbrace then
        match skipWs r with
        | c2 :: r2 =>
          if c2 = rbrace then some (JVal.jobj [], r2)
          else Option.map (fun p => (JVal.jobj p.1, p.2)) (parseFields fuel (c2 :: r2))
        | [] => none
      else if c = '[' then
        match skipWs r with
        | c2 :: r2 =>
          if c2 = ']' then some (JVal.jarr [], r2)
          else Option.map (fun p => (JVal.jarr p.1, p.2)) (parseElems fuel (c2 :: r2))
        | [] => none
      else if c = 't' then
        if r.take 3 = ['r', 'u', 'e'] then some (JVal.jbool true, r.drop 3) else none
      else if c = 'f' then
        if r.take 4 = ['a', 'l', 's', 'e'] then some (JVal.jbool false, r.drop 4) else none
      else if c = 'n' then
        if r.take 3 = ['u', 'l', 'l'] then some (JVal.jnull, r.drop 3) else none
      else if c = '-' then
        Option.map (fun p => (JVal.jnum (-(p.1 : Int)), p.2)) (parseNum r)
      else if isDigitC c then
        Option.map (fun p => (JVal.jnum (p.1 : Int), p.2)) (parseNum (c :: r))
      else none

/-- Fuel-indexed parser for a nonempty `key : value` field list, up to and
including the closing brace. -/
def parseFields : Nat → List Char → Option (List (List Char × JVal) × List Char)
  | 0, _ => none
  | fuel + 1, l =>
    match skipWs l with
    | c :: r =>
      if c = '"' then
        match parseStr r with
        | none => none
        | some (key, r1) =>
          match skipWs r1 with
          | c2 :: r2 =>
            if c2 = ':' then
              match parseVal fuel r2 with
              | none => none
              | some (v, r3) =>
                match skipWs r3 with
                | c3 :: r4 =>
                  if c3 = ',' then
                    Option.map (fun p => ((key, v) :: p.1, p.2)) (parseFields fuel r4)
                  else if c3 = rbrace then some ([(key, v)], r4)
                  else none
                | [] => none
            else none
          | [] => none
      else none
    | [] => none

/-- Fuel-indexed parser for a nonempty array element list, up to and
including the closing bracket. -/
def parseElems : Nat → List Char → Option (List JVal × List Char)
  | 0, _ => none
  | fuel + 1, l =>
    match parseVal fuel l with
    | none => none
    | some (v, r) =>
      match skipWs r with
      | c :: r2 =>
        if c = ',' then Option.map (fun p => (v :: p.1, p.2)) (parseElems fuel r2)
        else if c = ']' then some ([v], r2)
        else none
      | [] => none

end

/-- Parse a whole input as one JSON value; the fuel `length + 1` dominates
the number of recursive calls, each of which consumes input. -/
def parseJson (l : List Char) : Option JVal :=
  match parseVal (l.length + 1) l with
  | some (v, r) => if skipWs r = [] then some v else none
  | none => none

/-- The documented `data` keys for each action tag. -/
def dataKeysFor (a : List Char) : Option (List (List Char)) :=
  if a = strL ("create_goal") then
    some [strL ("goalTitle"), strL ("durationMonths"), strL ("dailyMinutes")]
  else if a = strL ("create_task") then
    some [strL ("taskTitle"), strL ("dueDate"), strL ("minutes")]
  else if a = strL ("complete_task") then some [strL ("taskTitle")]
  else if a = strL ("reply") then some []
  else if a = strL ("show_progress")then some []
  else none

/-- Does a parsed value have exactly the response shape of the spec:
fields `action` (an allowed tag), `message` (a string) and `data` (an
object with the documented action-specific keys)? -/
def respSchema : JVal → Bool
  | JVal.jobj [(k1, JVal.jstr a), (k2, JVal.jstr _), (k3, JVal.jobj d)] =>
    k1 = strL ("action") && k2 = strL ("message") && k3 = strL ("data") &&
    (match dataKeysFor a with
     | some ks => d.map Prod.fst = ks
     | none => false)
  | _ => false

/-- The `action` field of a response string, when it parses. -/
def respAction (l : List Char) : Option (List Char) :=
  match parseJson l with
  | some (JVal.jobj ((k, JVal.jstr a) :: _)) =>
    if k = strL ("action") then some a else none
  | _ => none

/-- Does the response string parse as JSON into the documented schema? -/
def wellFormedResp (l : List Char) : Bool :=
  match parseJson l with
  | some v => respSchema v
  | none => false

/-- A title whose characters survive unescaped splicing into a JSON string
literal: no quote, no backslash, no control character. -/
def safeTitle (t : List Char) : Prop :=
  ∀ c ∈ t, c ≠ '"' ∧ c ≠ '\x5c' ∧ 32 ≤ c.toNat

/-- A title with no backslash and no control character (the quote-free part
comes for free from the quote-extraction rule). -/
def tameTitle (t : List Char) : Prop :=
  ∀ c ∈ t, c ≠ '\x5c' ∧ 32 ≤ c.toNat

/-- The JSON value the `create_goal` response denotes. -/
def goalJson (t : List Char) : JVal :=
  JVal.jobj [ (strL ("action"), JVal.jstr (strL ("create_goal"))),
    (strL ("message"), JVal.jstr (strL ("I\x27ll create a goal for ") ++ t)),
    (strL ("data"), JVal.jobj [ (strL ("goalTitle"), JVal.jstr t),
      (strL ("durationMonths"), JVal.jnum 3),
      (strL ("dailyMinutes"), JVal.jnum 30) ]) ]

/-- The JSON value the `create_task` response denotes. -/
def taskJson (t : List Char) : JVal :=
  JVal.jobj [ (strL ("action"), JVal.jstr (strL ("create_task"))),
    (strL ("message"), JVal.jstr (strL ("I\x27ll add the task: ") ++ t)),
    (strL ("data"), JVal.jobj [ (strL ("taskTitle"), JVal.jstr t),
      (strL ("dueDate"), JVal.jstr (strL ("today"))),
      (strL ("minutes"), JVal.jnum 30) ]) ]

/-- The JSON value the `complete_task` response denotes. -/
def completeJson (t : List Char) : JVal :=
  JVal.jobj [ (strL ("action"), JVal.jstr (strL ("complete_task"))),
    (strL ("message"), JVal.jstr (strL ("Great job! I\x27ll mark that as complete."))),
    (strL ("data"), JVal.jobj [ (strL ("taskTitle"), JVal.jstr t) ]) ]

/-- One externally callable state-changing operation of the bridge
(`nativeLoadModel` delegates to `initModel` and `nativeCleanup` to
`nativeUnloadModel`, so both are covered). -/
inductive Op where
  | init (path : String)
  | gen (h : Int) (p : List Char) (n : Int)
  | free (h : Int)
  | unload

/-- The registry-state effect of one operation. -/
def step : Op → RegistryState → RegistryState
  | Op.init path, st => (initModel path st).2
  | Op.gen h p n, st => (generate h p n st).2
  | Op.free h, st => freeModel h st
  | Op.unload, st => nativeUnloadModel st

/-- Run a trace of operations from a state. -/
def runFrom (st : RegistryState) : List Op → RegistryState
  | [] => st
  | o :: t => runFrom (step o st) t

/-- Run a trace from process start. -/
def runTrace (t : List Op) : RegistryState := runFrom initState t

/-- The handles handed out by the `initModel` calls of a trace. -/
def issuedFrom (st : RegistryState) : List Op → List Int
  | [] => []
  | Op.init path :: t => st.nextHandle :: issuedFrom (step (Op.init path) st) t
  | o :: t => issuedFrom (step o st) t

/-- Registry invariant: a positive next handle bounding every key strictly,
and pairwise distinct keys. -/
def Inv (st : RegistryState) : Prop :=
  0 < st.nextHandle ∧ (∀ e ∈ st.contexts, 0 < e.1 ∧ e.1 < st.nextHandle) ∧
  (st.contexts.map Prod.fst).Nodup

/-- A prompt is title-safe when its extracted quoted value, if any, has no
backslash and no control character. -/
def titleSafe (p : List Char) : Prop :=
  ∀ t, betweenQuotes p = some t → tameTitle t

/-- The registry after one `initModel("model.gguf")` from process start. -/
def stOne : RegistryState := (initModel ("model.gguf") initState).2

/-- The registry after `initModel("a.gguf")` then `initModel("b.gguf")`:
handle 1 maps to the first model, handle 2 to the second. -/
def stTwo : RegistryState := (initModel ("b.gguf") (initModel ("a.gguf") initState).2).2

/-- Same two-model registry, used for the current-context claims. -/
def stC6 : RegistryState := (initModel ("b.gguf") (initModel ("a.gguf") initState).2).2

/-- One admissible model of `unordered_map::begin()`: the first entry of the
association list. -/
def headChoice : Choice := fun l => l.head?

/-- The entry with the smallest handle: the resolution rule the spec fixes
for the Legacy Facade's current context. -/
def minEntry : List (Int × ModelContext) → Option (Int × ModelContext)
  | [] => none
  | e :: t =>
    match minEntry t with
    | none => some e
    | some m => some (if e.1 ≤ m.1 then e else m)

/-- Modelled from the spec: the choice function resolving the current
context as "the context with the smallest handle value". -/
def minChoice : Choice := minEntry

/-! ## Theorems -/

theorem parseStr_safe {t : List Char} (h : safeTitle t) :
    ∀ r, parseStr (t ++ '"' :: r) = some (t, r) := by
  induction t with
  | nil => intro r; simp [parseStr]
  | cons c t ih =>
    intro r
    have hc := h c (by simp)
    have ht : safeTitle t := fun x hx => h x (by simp [hx])
    simp [parseStr, hc.1, hc.2.1, Nat.not_lt.mpr hc.2.2, ih ht r]

theorem parseVal_goal {t : List Char} (h : safeTitle t) :
    ∀ f, parseVal (f + 20) (goalTemplate t) = some (goalJson t, []) := by
  intro f
  simp [goalTemplate, goalJson, parseVal, parseFields, parseStr_safe h, parseStr, skipWs,
    strL, parseNum, takeDigits, digitsVal, isDigitC, lbrace, rbrace, decodeEsc]

theorem parseVal_task {t : List Char} (h : safeTitle t) :
    ∀ f, parseVal (f + 20) (taskTemplate t) = some (taskJson t, []) := by
  intro f
  simp [taskTemplate, taskJson, parseVal, parseFields, parseStr_safe h, parseStr, skipWs,
    strL, parseNum, takeDigits, digitsVal, isDigitC, lbrace, rbrace, decodeEsc]

theorem parseVal_complete {t : List Char} (h : safeTitle t) :
    ∀ f, parseVal (f + 20) (completeTemplate t) = some (completeJson t, []) := by
  intro f
  simp [completeTemplate, completeJson, parseVal, parseFields, parseStr_safe h, parseStr,
    skipWs, strL, parseNum, takeDigits, digitsVal, isDigitC, lbrace, rbrace, decodeEsc]

theorem parseJson_of_parseVal20 {l : List Char} {v : JVal} (h19 : 19 ≤ l.length)
    (hp : ∀ f, parseVal (f + 20) l = some (v, [])) : parseJson l = some v := by
  unfold parseJson
  have hf : l.length + 1 = (l.length - 19) + 20 := by omega
  rw [hf, hp]
  rfl

theorem goalTemplate_len (t : List Char) : 19 ≤ (goalTemplate t).length := by
  have h0 : 19 ≤ (goalTemplate []).length := by decide
  simp only [goalTemplate, List.length_append, List.length_nil] at h0 ⊢
  omega

theorem taskTemplate_len (t : List Char) : 19 ≤ (taskTemplate t).length := by
  have h0 : 19 ≤ (taskTemplate []).length := by decide
  simp only [taskTemplate, List.length_append, List.length_nil] at h0 ⊢
  omega

theorem completeTemplate_len (t : List Char) : 19 ≤ (completeTemplate t).length := by
  have h0 : 19 ≤ (completeTemplate []).length := by decide
  simp only [completeTemplate, List.length_append, List.length_nil] at h0 ⊢
  omega

theorem wf_goalTemplate {t : List Char} (h : safeTitle t) :
    wellFormedResp (goalTemplate t) = true := by
  unfold wellFormedResp
  rw [parseJson_of_parseVal20 (goalTemplate_len t) (parseVal_goal h)]
  rfl

theorem wf_taskTemplate {t : List Char} (h : safeTitle t) :
    wellFormedResp (taskTemplate t) = true := by
  unfold wellFormedResp
  rw [parseJson_of_parseVal20 (taskTemplate_len t) (parseVal_task h)]
  rfl

theorem wf_completeTemplate {t : List Char} (h : safeTitle t) :
    wellFormedResp (completeTemplate t) = true := by
  unfold wellFormedResp
  rw [parseJson_of_parseVal20 (completeTemplate_len t) (parseVal_complete h)]
  rfl

theorem goalTemplate_ne_invalid (t : List Char) : goalTemplate t ≠ invalidResponse := by
  intro h
  have h11 := congrArg (fun l : List Char => l[11]?) h
  simp only [goalTemplate, List.append_assoc] at h11
  rw [List.getElem?_append_left (by decide)] at h11
  exact absurd h11 (by decide)

theorem taskTemplate_ne_invalid (t : List Char) : taskTemplate t ≠ invalidResponse := by
  intro h
  have h11 := congrArg (fun l : List Char => l[11]?) h
  simp only [taskTemplate, List.append_assoc] at h11
  rw [List.getElem?_append_left (by decide)] at h11
  exact absurd h11 (by decide)

theorem completeTemplate_ne_invalid (t : List Char) :
    completeTemplate t ≠ invalidResponse := by
  intro h
  have h11 := congrArg (fun l : List Char => l[11]?) h
  simp only [completeTemplate, List.append_assoc] at h11
  rw [List.getElem?_append_left (by decide)] at h11
  exact absurd h11 (by decide)

theorem upToQuote_find (t : List Char) :
    upToQuote t = Option.map (fun i => t.take i) (findFrom '"' t 0) := by
  induction t with
  | nil => rfl
  | cons c t ih =>
    by_cases hc : c = '"'
    · subst hc
      simp [upToQuote, findFrom]
    · cases hf : findFrom '"' t 0 with
      | none => simp [upToQuote, findFrom, hc, ih, hf]
      | some e => simp [upToQuote, findFrom, hc, ih, hf]

theorem extract_cons {c : Char} (hc : c ≠ '"') (t : List Char) :
    extractTitleOpt (c :: t) = extractTitleOpt t := by
  cases hf : findFrom '"' t 0 with
  | none =>
    simp [extractTitleOpt, findFrom, hc, hf]
  | some s =>
    cases hg : findFrom '"' t (s + 1) with
    | none => simp [extractTitleOpt, findFrom, hc, hf, hg]
    | some e =>
      simp only [extractTitleOpt, findFrom, hc, hf, hg, if_neg, Option.map_some]
      simp

theorem extract_eq_between (p : List Char) : extractTitleOpt p = betweenQuotes p := by
  induction p with
  | nil => rfl
  | cons c t ih =>
    by_cases hc : c = '"'
    · subst hc
      cases hf : findFrom '"' t 0 with
      | none =>
        simp [extractTitleOpt, betweenQuotes, afterFirstQuote, findFrom, upToQuote_find, hf]
      | some e =>
        simp [extractTitleOpt, betweenQuotes, afterFirstQuote, findFrom, upToQuote_find, hf]
    · rw [extract_cons hc, ih]
      simp [betweenQuotes, afterFirstQuote, hc]

theorem upToQuote_no_quote : ∀ {l t : List Char}, upToQuote l = some t → '"' ∉ t := by
  intro l
  induction l with
  | nil => intro t h; cases h
  | cons c l ih =>
    intro t h
    by_cases hc : c = '"'
    · subst hc
      rw [upToQuote, if_pos rfl] at h
      injection h with h2
      subst h2
      simp
    · rw [upToQuote] at h
      simp [hc] at h
      obtain ⟨r, hr, hrt⟩ := h
      rw [← hrt]
      intro hmem
      rcases List.mem_cons.mp hmem with h1 | h2
      · exact hc h1.symm
      · exact ih hr h2

theorem between_no_quote {p t : List Char} (h : betweenQuotes p = some t) : '"' ∉ t := by
  unfold betweenQuotes at h
  cases ha : afterFirstQuote p with
  | none => rw [ha] at h; cases h
  | some m => rw [ha] at h; exact upToQuote_no_quote h

theorem safe_of_tame {t : List Char} (h1 : tameTitle t) (h2 : '"' ∉ t) : safeTitle t :=
  fun c hc => ⟨fun he => h2 (he ▸ hc), (h1 c hc).1, (h1 c hc).2⟩

theorem classify_ne_invalid (p : List Char) : classifyPrompt p ≠ invalidResponse := by
  simp only [classifyPrompt]
  repeat' split
  · exact goalTemplate_ne_invalid _
  · exact taskTemplate_ne_invalid _
  · decide
  · decide
  · exact completeTemplate_ne_invalid _
  · decide
  · decide
  · decide

theorem lookup_isSome_iff {h : Int} :
    ∀ {l : List (Int × ModelContext)},
      (lookupCtx h l).isSome = true ↔ ∃ c, (h, c) ∈ l := by
  intro l
  induction l with
  | nil => simp [lookupCtx]
  | cons e t ih =>
    by_cases he : e.1 = h
    · simp only [lookupCtx, if_pos he]
      constructor
      · intro _
        exact ⟨e.2, by rw [← he]; exact List.mem_cons_self e t⟩
      · intro _; rfl
    · simp only [lookupCtx, if_neg he, ih]
      constructor
      · intro ⟨c, hc⟩; exact ⟨c, List.mem_cons_of_mem e hc⟩
      · intro ⟨c, hc⟩
        rcases List.mem_cons.mp hc with h1 | h2
        · exact absurd (congrArg Prod.fst h1.symm) he
        · exact ⟨c, h2⟩

theorem lookup_none_of_not_mem {h : Int} :
    ∀ {l : List (Int × ModelContext)}, h ∉ l.map Prod.fst → lookupCtx h l = none := by
  intro l
  induction l with
  | nil => intro _; rfl
  | cons e t ih =>
    intro hnm
    simp only [List.map_cons, List.mem_cons] at hnm
    push_neg at hnm
    have hne : ¬(e.1 = h) := fun he => hnm.1 he.symm
    rw [lookupCtx, if_neg hne]
    exact ih hnm.2

theorem eraseKey_sublist (h : Int) :
    ∀ l : List (Int × ModelContext), (eraseKey h l).Sublist l := by
  intro l
  induction l with
  | nil => simp [eraseKey]
  | cons e t ih =>
    simp only [eraseKey]
    split
    · exact List.sublist_cons_self e t
    · exact List.Sublist.cons₂ e ih

theorem lookup_eraseKey_other {h h2 : Int} (hne : h2 ≠ h) :
    ∀ l : List (Int × ModelContext), lookupCtx h2 (eraseKey h l) = lookupCtx h2 l := by
  intro l
  induction l with
  | nil => rfl
  | cons e t ih =>
    by_cases he : e.1 = h
    · have hne2 : ¬(e.1 = h2) := by
        intro q
        rw [q] at he
        exact hne he
      simp only [eraseKey, if_pos he]
      rw [lookupCtx, if_neg hne2]
    · simp only [eraseKey, if_neg he]
      rw [lookupCtx, lookupCtx, ih]

theorem lookup_eraseKey_self {h : Int} :
    ∀ {l : List (Int × ModelContext)}, (l.map Prod.fst).Nodup →
      lookupCtx h (eraseKey h l) = none := by
  intro l
  induction l with
  | nil => intro _; rfl
  | cons e t ih =>
    intro hnd
    simp only [List.map_cons, List.nodup_cons] at hnd
    by_cases he : e.1 = h
    · simp only [eraseKey, if_pos he]
      exact lookup_none_of_not_mem (he ▸ hnd.1)
    · simp only [eraseKey, if_neg he, lookupCtx, if_neg he]
      exact ih hnd.2

theorem lookup_eraseKey_none {h h2 : Int} :
    ∀ {l : List (Int × ModelContext)}, lookupCtx h l = none →
      lookupCtx h (eraseKey h2 l) = none := by
  intro l
  induction l with
  | nil => intro _; rfl
  | cons e t ih =>
    intro hn
    by_cases he : e.1 = h
    · rw [lookupCtx, if_pos he] at hn; cases hn
    · rw [lookupCtx, if_neg he] at hn
      simp only [eraseKey]
      split
      · exact hn
      · rw [lookupCtx, if_neg he]
        exact ih hn

theorem step_init (path : String) (st : RegistryState) :
    step (Op.init path) st =
      { contexts := (st.nextHandle, mkContext path) :: st.contexts,
        nextHandle := st.nextHandle + 1 } := rfl

theorem step_gen (h : Int) (p : List Char) (n : Int) (st : RegistryState) :
    step (Op.gen h p n) st = st := rfl

theorem step_free (h : Int) (st : RegistryState) :
    step (Op.free h) st = freeModel h st := rfl

theorem step_unload (st : RegistryState) :
    step Op.unload st = { st with contexts := [] } := rfl

theorem runFrom_append (a : List Op) :
    ∀ (st : RegistryState) (b : List Op), runFrom st (a ++ b) = runFrom (runFrom st a) b := by
  induction a with
  | nil => intro st b; rfl
  | cons o a ih =>
    intro st b
    rw [List.cons_append]
    show runFrom (step o st) (a ++ b) = runFrom (runFrom (step o st) a) b
    exact ih (step o st) b

theorem inv_initState : Inv initState := by
  refine ⟨by decide, ?_, by simp [initState]⟩
  intro e he
  simp [initState] at he

theorem inv_step {st : RegistryState} (o : Op) (hI : Inv st) : Inv (step o st) := by
  obtain ⟨h0, hb, hnd⟩ := hI
  cases o with
  | init path =>
    rw [step_init]
    refine ⟨by simp; omega, ?_, ?_⟩
    · intro e he
      rcases List.mem_cons.mp he with h1 | h2
      · rw [h1]
        exact ⟨h0, by simp⟩
      · have := hb e h2
        simp
        omega
    · simp only [List.map_cons, List.nodup_cons]
      refine ⟨?_, hnd⟩
      intro hmem
      rcases List.mem_map.mp hmem with ⟨e, he, hfst⟩
      have := hb e he
      omega
  | gen h p n => exact ⟨h0, hb, hnd⟩
  | free h =>
    rw [step_free]
    unfold freeModel
    split
    · exact ⟨h0, hb, hnd⟩
    · refine ⟨h0, ?_, ?_⟩
      · intro e he
        exact hb e ((eraseKey_sublist h st.contexts).mem he)
      · exact List.Nodup.sublist ((eraseKey_sublist h st.contexts).map Prod.fst) hnd
  | unload =>
    rw [step_unload]
    refine ⟨h0, ?_, by simp⟩
    intro e he
    simp at he

theorem inv_runFrom {st : RegistryState} (t : List Op) (hI : Inv st) : Inv (runFrom st t) := by
  induction t generalizing st with
  | nil => exact hI
  | cons o t ih => exact ih (inv_step o hI)

theorem nextHandle_le_step (o : Op) (st : RegistryState) :
    st.nextHandle ≤ (step o st).nextHandle := by
  cases o with
  | init path =>
    rw [step_init]
    simp
  | gen h p n => exact Int.le_refl _
  | free h =>
    rw [step_free]
    unfold freeModel
    split
    · exact Int.le_refl _
    · exact Int.le_refl _
  | unload => exact Int.le_refl _

theorem nextHandle_le_runFrom (t : List Op) :
    ∀ st : RegistryState, st.nextHandle ≤ (runFrom st t).nextHandle := by
  induction t with
  | nil => intro st; exact Int.le_refl _
  | cons o t ih =>
    intro st
    exact Int.le_trans (nextHandle_le_step o st) (ih (step o st))

theorem hasKey_runFrom {h : Int} (t : List Op) :
    ∀ st : RegistryState, (lookupCtx h (runFrom st t).contexts).isSome = true →
      (lookupCtx h st.contexts).isSome = true ∨ h ∈ issuedFrom st t := by
  induction t with
  | nil => intro st hk; exact Or.inl hk
  | cons o t ih =>
    intro st hk
    rcases ih (step o st) hk with h1 | h2
    · cases o with
      | init path =>
        simp only [step, initModel] at h1
        by_cases he : st.nextHandle = h
        · exact Or.inr (by simp [issuedFrom, he])
        · rw [lookupCtx, if_neg he] at h1
          exact Or.inl h1
      | gen h2 p n => exact Or.inl h1
      | free h2 =>
        simp only [step, freeModel] at h1
        left
        revert h1
        split
        · exact id
        · intro h1
          rcases lookup_isSome_iff.mp h1 with ⟨c, hc⟩
          exact lookup_isSome_iff.mpr ⟨c, (eraseKey_sublist h2 st.contexts).mem hc⟩
      | unload =>
        simp [step, nativeUnloadModel, lookupCtx] at h1
    · cases o with
      | init path =>
        exact Or.inr (by simp [issuedFrom]; right; exact h2)
      | gen h3 p n => exact Or.inr h2
      | free h3 => exact Or.inr h2
      | unload => exact Or.inr h2

theorem dead_stays {h : Int} (t : List Op) :
    ∀ st : RegistryState, lookupCtx h st.contexts = none → h < st.nextHandle →
      lookupCtx h (runFrom st t).contexts = none := by
  induction t with
  | nil => intro st hn _; exact hn
  | cons o t ih =>
    intro st hn hlt
    cases o with
    | init path =>
      apply ih
      · simp only [step, initModel]
        rw [lookupCtx, if_neg (by omega)]
        exact hn
      · simp only [step, initModel]; omega
    | gen h2 p n => exact ih st hn hlt
    | free h2 =>
      apply ih
      · simp only [step, freeModel]
        split
        · exact hn
        · exact lookup_eraseKey_none hn
      · simp only [step, freeModel]
        split
        · exact hlt
        · exact hlt
    | unload => exact ih _ (by rfl) hlt

theorem runFrom_cons (o : Op) (st : RegistryState) (t : List Op) :
    runFrom st (o :: t) = runFrom (step o st) t := rfl

theorem freeModel_nextHandle (h : Int) (st : RegistryState) :
    (freeModel h st).nextHandle = st.nextHandle := by
  unfold freeModel
  split
  · rfl
  · rfl

theorem wf_classify {p : List Char} (hts : titleSafe p) :
    wellFormedResp (classifyPrompt p) = true := by
  simp only [classifyPrompt]
  repeat' split
  · simp only [extractTitle, extract_eq_between]
    cases hb : betweenQuotes p with
    | none => decide
    | some t =>
      simp only [Option.getD_some]
      exact wf_goalTemplate (safe_of_tame (hts t hb) (between_no_quote hb))
  · simp only [extractTitle, extract_eq_between]
    cases hb : betweenQuotes p with
    | none => decide
    | some t =>
      simp only [Option.getD_some]
      exact wf_taskTemplate (safe_of_tame (hts t hb) (between_no_quote hb))
  · decide
  · decide
  · simp only [extractTitle, extract_eq_between]
    cases hb : betweenQuotes p with
    | none => decide
    | some t =>
      simp only [Option.getD_some]
      exact wf_completeTemplate (safe_of_tame (hts t hb) (between_no_quote hb))
  · decide
  · decide
  · decide

theorem wf_generate {st : RegistryState} {h : Int} {p : List Char} {n : Int}
    (hv : (lookupCtx h st.contexts).isSome = true) (hts : titleSafe p) :
    wellFormedResp ((generate h p n st).1) = true := by
  obtain ⟨c, hc⟩ := Option.isSome_iff_exists.mp hv
  unfold generate
  rw [hc]
  simpa using wf_classify hts

theorem valid_headChoice : ValidChoice headChoice := by
  constructor
  · intro l e h
    cases l with
    | nil => cases h
    | cons a t =>
      have h2 : a = e := by
        have : some a = some e := h
        injection this
      rw [← h2]
      exact List.mem_cons_self a t
  · intro l hne
    cases l with
    | nil => exact absurd rfl hne
    | cons a t => rfl

/-- C1: on any handle never issued by `initModel`, or freed by `freeModel`
while registered and hence never re-issued, `generate` returns exactly the
fixed invalid-context JSON reply, and the handle table and next-handle
counter are unchanged. -/
theorem claim_C1 (t : List Op) (h : Int) (p : List Char) (n : Int)
    (hgone : h ∉ issuedFrom initState t ∨
      ∃ t1 t2, t = t1 ++ Op.free h :: t2 ∧
        (lookupCtx h (runFrom initState t1).contexts).isSome = true) :
    generate h p n (runTrace t) = (invalidResponse, runTrace t) := by
  have hnone : lookupCtx h (runTrace t).contexts = none := by
    rcases hgone with hni | ⟨t1, t2, ht, hsome⟩
    · cases hl : lookupCtx h (runTrace t).contexts with
      | none => rfl
      | some c =>
        have hk : (lookupCtx h (runTrace t).contexts).isSome = true := by
          rw [hl]; rfl
        rcases hasKey_runFrom t initState hk with h1 | h2
        · simp [initState, lookupCtx] at h1
        · exact absurd h2 hni
    · rw [ht, runTrace, runFrom_append, runFrom_cons]
      have hInv : Inv (runFrom initState t1) := inv_runFrom t1 inv_initState
      obtain ⟨c, hc⟩ := lookup_isSome_iff.mp hsome
      have hlt : h < (runFrom initState t1).nextHandle := (hInv.2.1 (h, c) hc).2
      apply dead_stays
      · rw [step_free]
        unfold freeModel
        rw [if_neg (by
          intro hcond
          rw [Option.isNone_iff_eq_none] at hcond
          rw [hcond] at hsome
          simp at hsome)]
        exact lookup_eraseKey_self hInv.2.2
      · rw [step_free, freeModel_nextHandle]
        exact hlt
  unfold generate
  rw [hnone]
  rfl

/-- C1 witness: handle 7 was never issued by the one-`initModel` trace, and
`generate` on it returns the invalid-context reply with the state intact. -/
theorem claim_C1_witness :
    generate 7 (strL ("hi")) 5 (runTrace [Op.init ("m.gguf")]) =
      (invalidResponse, runTrace [Op.init ("m.gguf")]) :=
  claim_C1 [Op.init ("m.gguf")] 7 (strL ("hi")) 5 (Or.inl (by decide))

/-- C2: from any reachable state, `initModel` returns a strictly positive
handle that is immediately registered, `generate` on it does not return the
model-not-loaded reply, and any later `initModel` (after any continuation of
the trace) returns a different handle. -/
theorem claim_C2 (t t2 : List Op) (path path2 : String) (p : List Char) (n : Int) :
    0 < (initModel path (runTrace t)).1 ∧
    (lookupCtx (initModel path (runTrace t)).1
      (initModel path (runTrace t)).2.contexts).isSome = true ∧
    (generate (initModel path (runTrace t)).1 p n (initModel path (runTrace t)).2).1 ≠
      invalidResponse ∧
    (initModel path2 (runTrace (t ++ Op.init path :: t2))).1 ≠
      (initModel path (runTrace t)).1 := by
  have hInv : Inv (runTrace t) := inv_runFrom t inv_initState
  refine ⟨hInv.1, by simp [initModel, lookupCtx], ?_, ?_⟩
  · have hl : lookupCtx (initModel path (runTrace t)).1
        (initModel path (runTrace t)).2.contexts = some (mkContext path) := by
      simp [initModel, lookupCtx]
    unfold generate
    rw [hl]
    simpa using classify_ne_invalid p
  · have hmono := nextHandle_le_runFrom t2 (step (Op.init path) (runTrace t))
    have hstep : (step (Op.init path) (runTrace t)).nextHandle =
        (runTrace t).nextHandle + 1 := by rw [step_init]
    simp only [runTrace, runFrom_append, runFrom_cons, initModel]
    simp only [runTrace] at hmono hstep
    omega

/-- C3 counterexample: on a registry holding handle 1, the prompt
`show my status` does NOT produce the `show_progress` action — the
list/show rule fires first. -/
theorem claim_C3_cex :
    (lookupCtx 1 stOne.contexts).isSome = true ∧
    respAction ((generate 1 (strL ("show my status")) 64 stOne).1) ≠
      some (strL ("show_progress")) := by
  constructor
  · decide
  · decide

/-- C3 (amended): for a valid handle, `generate` on `show my status` returns
the fixed list/show informational reply, whose action tag is `reply` — the
`show` rule precedes the `status` rule in the classifier's priority order. -/
theorem claim_C3 (st : RegistryState) (h : Int) (n : Int)
    (hv : (lookupCtx h st.contexts).isSome = true) :
    (generate h (strL ("show my status")) n st).1 = listShowResponse ∧
    respAction listShowResponse = some (strL ("reply")) := by
  constructor
  · obtain ⟨c, hc⟩ := Option.isSome_iff_exists.mp hv
    unfold generate
    rw [hc]
    simp only [Option.isNone_some, Bool.false_eq_true, if_false]
    decide
  · decide

/-- C3 witness: the amended fact at a concrete registry and handle. -/
theorem claim_C3_witness :
    (generate 1 (strL ("show my status")) 8 stOne).1 = listShowResponse ∧
    respAction listShowResponse = some (strL ("reply")) :=
  claim_C3 stOne 1 8 (by decide)

/-- C4: a prompt reaching the create-goal, create-task or complete-task rule
has its title extracted as the substring strictly between the first double
quote and the next one, with the rule's default when fewer than two quotes
exist; in particular the Learn Spanish example produces `create_goal` with
that exact title. -/
theorem claim_C4 :
    (∀ p, (containsSub (strL ("create")) (p.map lowerChar) &&
           containsSub (strL ("goal")) (p.map lowerChar)) = true →
      classifyPrompt p = goalTemplate ((betweenQuotes p).getD (strL ("New Goal")))) ∧
    (∀ p, (containsSub (strL ("create")) (p.map lowerChar) &&
           containsSub (strL ("goal")) (p.map lowerChar)) = false →
      (containsSub (strL ("add")) (p.map lowerChar) &&
       containsSub (strL ("task")) (p.map lowerChar)) = true →
      classifyPrompt p = taskTemplate ((betweenQuotes p).getD (strL ("New Task")))) ∧
    (∀ p, (containsSub (strL ("create")) (p.map lowerChar) &&
           containsSub (strL ("goal")) (p.map lowerChar)) = false →
      (containsSub (strL ("add")) (p.map lowerChar) &&
       containsSub (strL ("task")) (p.map lowerChar)) = false →
      (containsSub (strL ("list")) (p.map lowerChar) ||
       containsSub (strL ("show")) (p.map lowerChar)) = false →
      containsSub (strL ("help")) (p.map lowerChar) = false →
      (containsSub (strL ("complete")) (p.map lowerChar) ||
       containsSub (strL ("done")) (p.map lowerChar) ||
       containsSub (strL ("finish")) (p.map lowerChar)) = true →
      classifyPrompt p = completeTemplate ((betweenQuotes p).getD (strL ("task")))) ∧
    (generate 1 (strL ("Create a goal for \"Learn Spanish\"")) 7 stOne).1 =
      goalTemplate (strL ("Learn Spanish")) := by
  refine ⟨?_, ?_, ?_, by decide⟩
  · intro p h0
    simp [classifyPrompt, h0, extractTitle, extract_eq_between]
  · intro p h0 h1
    simp [classifyPrompt, h0, h1, extractTitle, extract_eq_between]
  · intro p h0 h1 h2 h3 h4
    simp [classifyPrompt, h0, h1, h2, h3, h4, extractTitle, extract_eq_between]

/-- C4 witness: the task rule applied to a concrete prompt. -/
theorem claim_C4_witness :
    classifyPrompt (strL ("add task \"buy milk\"")) =
      taskTemplate ((betweenQuotes (strL ("add task \"buy milk\""))).getD (strL ("New Task"))) :=
  claim_C4.2.1 (strL ("add task \"buy milk\"")) (by decide) (by decide)

/-- C5 counterexample: on a valid handle, the prompt `create goal "\"`
(quoted title a lone backslash) makes `generate` return a string that does
not parse as JSON at all — the title is spliced without escaping. -/
theorem claim_C5_cex :
    (lookupCtx 1 stOne.contexts).isSome = true ∧
    (parseJson ((generate 1 (strL ("create goal \"\x5c\"")) 9 stOne).1)).isNone = true := by
  constructor
  · decide
  · rfl

/-- C5 (amended): for every valid handle and every prompt whose extracted
quoted title contains no backslash and no control character, the `generate`
response parses as a JSON object with exactly the fields `action` (an
allowed tag), `message` (a string) and `data` (an object with the
documented action-specific keys); likewise for the legacy generate path
under any admissible `begin()` choice. -/
theorem claim_C5 :
    (∀ st h p n, (lookupCtx h st.contexts).isSome = true → titleSafe p →
       wellFormedResp ((generate h p n st).1) = true) ∧
    (∀ choice, ValidChoice choice → ∀ p n te tp st, titleSafe p →
       wellFormedResp ((nativeGenerate choice p n te tp st).1) = true) := by
  constructor
  · intro st h p n hv hts
    exact wf_generate hv hts
  · intro choice hvc p n te tp st hts
    by_cases he : st.contexts.isEmpty
    · simp [nativeGenerate, he]
      decide
    · have hne : st.contexts ≠ [] := by simpa [List.isEmpty_iff] using he
      obtain ⟨e, hee⟩ := Option.isSome_iff_exists.mp (hvc.2 st.contexts hne)
      have hmem := hvc.1 st.contexts e hee
      by_cases hz : e.1 = 0
      · simp [nativeGenerate, he, hee, hz]
        decide
      · simp only [nativeGenerate, he, hee, Bool.false_eq_true, if_false]
        rw [if_neg hz]
        exact wf_generate (lookup_isSome_iff.mpr ⟨e.2, hmem⟩) hts

/-- C5 witness: both response paths produce schema-conforming JSON at
concrete inputs. -/
theorem claim_C5_witness :
    wellFormedResp ((generate 1 (strL ("create a goal \"Read\"")) 4 stOne).1) = true ∧
    wellFormedResp ((nativeGenerate headChoice (strL ("help")) 4 0.5 0.9 stOne).1) = true := by
  constructor
  · exact claim_C5.1 stOne 1 (strL ("create a goal \"Read\"")) 4 (by decide) (by
      intro t ht
      rw [show betweenQuotes (strL ("create a goal \"Read\"")) = some (strL ("Read")) from rfl] at ht
      injection ht with h2
      rw [← h2]
      unfold tameTitle
      decide)
  · exact claim_C5.2 headChoice valid_headChoice (strL ("help")) 4 0.5 0.9 stOne (by
      intro t ht
      rw [show betweenQuotes (strL ("help")) = none from rfl] at ht
      cases ht)

/-- C6 counterexample: the code resolves the current context through
`unordered_map::begin()`, whose choice is unspecified; an admissible choice
(the first list entry) disagrees with the smallest-handle resolution on a
two-model registry, so the smallest-handle determinism claimed does not
hold of the code. -/
theorem claim_C6_cex :
    ¬ ∀ choice, ValidChoice choice → ∀ st, 2 ≤ st.contexts.length →
        (nativeGetModelInfo choice st).1 = (nativeGetModelInfo minChoice st).1 := by
  intro hclaim
  have h := hclaim headChoice valid_headChoice stC6 (by decide)
  exact absurd h (by decide)

/-- C6 (amended): under any admissible `begin()` choice, the Legacy Facade
resolves the current context to some currently registered entry: the model
info is that entry's snapshot, and legacy generation forwards to `generate`
on that entry's handle (when the handle is non-zero); which registered
entry is chosen is not specified to be the smallest handle. -/
theorem claim_C6 (choice : Choice) (hvc : ValidChoice choice) (st : RegistryState)
    (hne : st.contexts ≠ []) :
    ∃ e ∈ st.contexts,
      (nativeGetModelInfo choice st).1 = modelInfoString e.2 ∧
      ∀ p n te tp, e.1 ≠ 0 → nativeGenerate choice p n te tp st = generate e.1 p n st := by
  obtain ⟨e, hee⟩ := Option.isSome_iff_exists.mp (hvc.2 st.contexts hne)
  have hempty : st.contexts.isEmpty = false := by simpa [List.isEmpty_iff] using hne
  refine ⟨e, hvc.1 st.contexts e hee, ?_, ?_⟩
  · unfold nativeGetModelInfo
    rw [if_neg (by simp [hempty]), hee]
  · intro p n te tp hz
    simp only [nativeGenerate, hempty, Bool.false_eq_true, if_false, hee]
    rw [if_neg hz]

/-- C6 witness: the amended resolution fact at a concrete two-model registry
with the head-of-list choice. -/
theorem claim_C6_witness :
    ∃ e ∈ stC6.contexts,
      (nativeGetModelInfo headChoice stC6).1 = modelInfoString e.2 ∧
      ∀ p n te tp, e.1 ≠ 0 →
        nativeGenerate headChoice p n te tp stC6 = generate e.1 p n stC6 :=
  claim_C6 headChoice valid_headChoice stC6 (by decide)

/-- C7: `nativeGenerateWithCallback` returns exactly what `nativeGenerate`
returns with `topP = 0.9` in the same state, and performs no incremental
sink deliveries — the callback is never invoked in the stub. -/
theorem claim_C7 {κ : Type} (choice : Choice) (p : List Char) (n : Int) (te : Float)
    (cb : κ) (st : RegistryState) :
    (nativeGenerateWithCallback choice p n te cb st).1 =
      nativeGenerate choice p n te 0.9 st ∧
    (nativeGenerateWithCallback choice p n te cb st).2 = [] :=
  ⟨rfl, rfl⟩

/-- C8: `freeModel` never changes the next-handle counter, leaves every
other handle's entry untouched, and is a complete no-op on an absent
handle. -/
theorem claim_C8 (st : RegistryState) (h : Int) :
    (freeModel h st).nextHandle = st.nextHandle ∧
    (∀ h2, h2 ≠ h → lookupCtx h2 (freeModel h st).contexts = lookupCtx h2 st.contexts) ∧
    ((lookupCtx h st.contexts).isNone = true → freeModel h st = st) := by
  refine ⟨freeModel_nextHandle h st, ?_, ?_⟩
  · intro h2 hne
    unfold freeModel
    split
    · rfl
    · exact lookup_eraseKey_other hne st.contexts
  · intro hnone
    unfold freeModel
    rw [if_pos hnone]

/-- C8 witness: freeing handle 1 keeps handle 2's entry, and freeing the
absent handle 5 is the identity, on a concrete two-model registry. -/
theorem claim_C8_witness :
    lookupCtx 2 (freeModel 1 stTwo).contexts = lookupCtx 2 stTwo.contexts ∧
    freeModel 5 stTwo = stTwo :=
  ⟨(claim_C8 stTwo 1).2.1 2 (by decide), (claim_C8 stTwo 5).2.2 (by decide)⟩

/-- C10: the `generate` response is independent of `maxTokens`, and the
legacy response is independent of `maxTokens`, `temperature` and `topP` —
the stub accepts and ignores these parameters. -/
theorem claim_C10 (choice : Choice) (h : Int) (p : List Char) (n n2 : Int)
    (st : RegistryState) (te te2 tp tp2 : Float) :
    generate h p n st = generate h p n2 st ∧
    nativeGenerate choice p n te tp st = nativeGenerate choice p n2 te2 tp2 st :=
  ⟨rfl, rfl⟩

end LlamaJni
